import Mathlib

/-!
Verification of the practiso_sdk archive codec and generative-AI agent
(`src/practiso_sdk/archive.py`, `src/practiso_sdk/google/ai.py`) against its
natural-language specification.

Embedding conventions:
* Python exceptions are modelled by `Except PyError`; the spec error kinds map
  to Python exception classes as the code uses them: InvalidFormat = TypeError,
  InvalidInput = ValueError, Unimplemented = RuntimeError.
* `xml.etree.ElementTree.Element` is modelled by `XmlElement`: a tag string, an
  insertion-ordered attribute list (values are `Option String` because the code
  stores `None` as an attribute value, e.g. the unconditional quiz `name`),
  optional text, and a list of children.  Mutating `SubElement` calls are
  modelled by returning the updated parent.
* Python `datetime` values are modelled abstractly as integers with an
  injective iso codec; `float` intensities are modelled as exact rationals
  (the claims under check only use order comparisons and an injective
  string codec, which rationals model exactly).
* Python `set` values are modelled as duplicate-free lists in an unspecified
  iteration order; theorems about sets quantify over that order.  `set(...)`
  construction hashes each element (raising for unhashable elements, which is
  observable behaviour of the source) and deduplicates by `==`.
* Exception messages raised by the repository code are reproduced verbatim;
  messages raised by the Python runtime itself (ValueError from `str.index`,
  TypeError for unhashable values, ...) are reproduced up to quotation marks.
-/

/-- Python exception kinds raised by the embedded code. -/
inductive PyError where
  | typeError (msg : String)
  | valueError (msg : String)
  | runtimeError (msg : String)
  | attributeError (msg : String)
  | indexError (msg : String)
deriving DecidableEq

/-- The spec kind InvalidFormat is the TypeError class in the source
(`_get_attribute_safe`, tag mismatches, wrong child counts all raise
TypeError). -/
def PyError.isInvalidFormat : PyError → Bool
  | .typeError _ => true
  | _ => false

/-- A computation raises the InvalidFormat kind (some TypeError). -/
def failsInvalidFormat {α : Type} : Except PyError α → Bool
  | .error e => e.isInvalidFormat
  | .ok _ => false

deriving instance DecidableEq for Except

/-- Model of `xml.etree.ElementTree.Element`: tag, ordered attribute list
(values may be Python `None`), text, children. -/
inductive XmlElement where
  | mk (tag : String) (attrib : List (String × Option String))
       (text : Option String) (children : List XmlElement)

def XmlElement.tag : XmlElement → String
  | .mk t _ _ _ => t

def XmlElement.attrib : XmlElement → List (String × Option String)
  | .mk _ a _ _ => a

def XmlElement.text : XmlElement → Option String
  | .mk _ _ t _ => t

def XmlElement.children : XmlElement → List XmlElement
  | .mk _ _ _ c => c

/-- `element.attrib[k] if k in element.attrib else None` (also the value read
for an attribute stored with value `None`). -/
def XmlElement.attrGet (e : XmlElement) (name : String) : Option String :=
  match e.attrib.lookup name with
  | some v => v
  | none => none

/-- `NAMESPACE` from archive.py. -/
def NAMESPACE : String := "http://schema.zhufucdev.com/practiso"

/-- `_namespace_extended` from archive.py (it is defined in the source but
never called by it; the parsers in this file use it to build the
namespace-qualified tags that a reparsed document carries). -/
def _namespace_extended (tag : String) : String :=
  "\x7b" ++ NAMESPACE ++ "\x7d" ++ tag

/-- Index of the first occurrence of a character, `none` when absent
(the argument order matches `list.index`: haystack last). -/
def charIndex (c : Char) : List Char → Option Nat
  | [] => none
  | x :: rest => if x == c then some 0 else (charIndex c rest).map (· + 1)

/-- The decimal digit character for one digit value (codepoint 48 plus the
digit; a star for anything out of range, which the printer never emits). -/
def digitChar (d : Nat) : Char :=
  if _h : d < 10 then Char.ofNat (48 + d) else '*'

/-- The value of one decimal digit character (codepoints 48 through 57). -/
def digitVal (c : Char) : Option Nat :=
  if 48 ≤ c.toNat ∧ c.toNat ≤ 57 then some (c.toNat - 48) else none

/-- Decimal digits of a natural number, most significant first (the string
Python `str` prints for a non-negative integer). -/
def natChars (n : Nat) : List Char :=
  if n < 10 then [digitChar n]
  else natChars (n / 10) ++ [digitChar (n % 10)]

/-- Decimal accumulator parse of a digit list. -/
def goNat : Nat → List Char → Option Nat
  | acc, [] => some acc
  | acc, c :: rest =>
    match digitVal c with
    | some d => goNat (10 * acc + d) rest
    | none => none

/-- Parse a non-empty all-digit list as a natural number. -/
def natOfChars (l : List Char) : Option Nat :=
  if l = [] then none else goNat 0 l

/-- Decimal character rendering of an integer (Python `str(int)`). -/
def intChars (i : Int) : List Char :=
  if i < 0 then '-' :: natChars i.natAbs else natChars i.toNat

/-- Parse an optionally minus-signed digit list as an integer. -/
def intOfChars : List Char → Option Int
  | [] => none
  | c :: rest =>
    if c = '-' then (natOfChars rest).map fun n => -(n : Int)
    else (natOfChars (c :: rest)).map fun n => (n : Int)

/-- Python `str(int)` as a string. -/
def intString (i : Int) : String := (intChars i).asString

/-- Character rendering of a rational: the integer numerator alone when the
denominator is one, else numerator, slash, denominator. -/
def ratChars (q : ℚ) : List Char :=
  if q.den = 1 then intChars q.num
  else intChars q.num ++ '/' :: natChars q.den

/-- Character-level parse inverting `ratChars`. -/
def ratOfChars (l : List Char) : Option ℚ :=
  match charIndex '/' l with
  | none => (intOfChars l).map fun n => (n : ℚ)
  | some i =>
    match intOfChars (l.take i), natOfChars (l.drop (i + 1)) with
    | some n, some d => if d = 0 then none else some ((n : ℚ) / (d : ℚ))
    | _, _ => none

/-- `_get_simple_tag_name` from archive.py, applied to `element.tag`.
Python `str.index` raises `ValueError: substring not found` when the
character is absent, so the `rb < 0` fallback branch of the source is
unreachable and is not represented; when the brace is found the source
returns `element.tag[rb + 1:]`. -/
def _get_simple_tag_name (tag : String) : Except PyError String :=
  match charIndex '\x7d' tag.toList with
  | none => .error (.valueError "substring not found")
  | some i => .ok ((tag.toList.drop (i + 1)).asString)

/-- `_get_attribute_safe` from archive.py.  The `convert=None` call sites pass
`Except.ok` as the conversion. -/
def _get_attribute_safe {α : Type} (e : XmlElement) (name : String)
    (convert : Option String → Except PyError α) : Except PyError α :=
  match e.attrib.lookup name with
  | some v => convert v
  | none => .error (.typeError ("Missing attribute " ++ name ++ " in tag " ++ e.tag))

/-- Python `int(x)` applied to an attribute value (`None` raises TypeError,
non-numeric strings raise ValueError). -/
def pyInt : Option String → Except PyError Int
  | none => .error (.typeError "int() argument must be a string, not NoneType")
  | some s =>
    match intOfChars s.toList with
    | some n => .ok n
    | none => .error (.valueError ("invalid literal for int() with base 10: " ++ s))

/-- Parse the string form produced by `floatRepr` back into a rational. -/
def parseRat (s : String) : Option ℚ := ratOfChars s.toList

/-- Python `str(x)` on a float, abstracted as the injective rational printer
(Python guarantees `float(str(x)) == x`, which this codec models exactly). -/
def floatRepr (q : ℚ) : String := (ratChars q).asString

/-- Python `float(text)` on an element text (`None` raises TypeError). -/
def pyFloat : Option String → Except PyError ℚ
  | none => .error (.typeError "float() argument must be a string, not NoneType")
  | some s =>
    match parseRat s with
    | some q => .ok q
    | none => .error (.valueError ("could not convert string to float: " ++ s))

/-- `datetime.isoformat`, with datetimes abstracted as integers and the iso
codec abstracted as the injective decimal printer (Python guarantees
`fromisoformat(isoformat(t)) == t`, which this codec models exactly). -/
def pyIsoformat (t : Int) : String := intString t

/-- `datetime.fromisoformat` applied to an attribute value. -/
def pyFromIso : Option String → Except PyError Int
  | none => .error (.typeError "fromisoformat: argument must be str")
  | some s =>
    match intOfChars s.toList with
    | some n => .ok n
    | none => .error (.valueError ("Invalid isoformat string: " ++ s))

mutual
/-- The frame hierarchy of archive.py as a closed sum.  `bare` is a directly
instantiated abstract `ArchiveFrame()`; `pynone` is the Python `None` that
`ArchiveFrame.parse_xml_element` returns for unrecognised tags and that can
therefore sit in a frames list or an `OptionItem.content`.  `Text.content`
and the string fields of `Image` are `Option String` because the parsers
store raw element text / attribute values, which may be `None`. -/
inductive ArchiveFrame where
  | bare
  | pynone
  | text (content : Option String)
  | image (filename : Option String) (width : Int) (height : Int) (alt_text : Option String)
  | options (content : List OptionItem) (name : Option String)

/-- `OptionItem` from archive.py. -/
inductive OptionItem where
  | mk (content : ArchiveFrame) (is_key : Bool) (priority : Int)
end

def OptionItem.content : OptionItem → ArchiveFrame
  | .mk c _ _ => c

def OptionItem.is_key : OptionItem → Bool
  | .mk _ k _ => k

def OptionItem.priority : OptionItem → Int
  | .mk _ _ p => p

mutual
/-- Python `==` on frames: each variant checks `isinstance` and compares
fields; `Options.content` is a `set`, compared extensionally.  `None == None`
is true.  Two bare abstract frames compare by object identity in Python;
distinct constructions are unequal, modelled as `false` (no claim under
check compares bare frames). -/
def framePyEq : ArchiveFrame → ArchiveFrame → Bool
  | .pynone, .pynone => true
  | .text c, .text c' => c == c'
  | .image f w h a, .image f' w' h' a' => w == w' && h == h' && f == f' && a == a'
  | .options xs n, .options ys n' => itemsSubset xs ys && itemsSubset ys xs && n == n'
  | _, _ => false
termination_by a b => sizeOf a + sizeOf b

/-- Python `==` on `OptionItem`. -/
def itemPyEq : OptionItem → OptionItem → Bool
  | .mk c k p, .mk c' k' p' => framePyEq c c' && k == k' && p == p'
termination_by a b => sizeOf a + sizeOf b

/-- Python set membership probe: some table element equals the probe. -/
def itemMem (i : OptionItem) : List OptionItem → Bool
  | [] => false
  | j :: rest => itemPyEq j i || itemMem i rest
termination_by l => sizeOf i + sizeOf l

/-- One inclusion of Python set equality. -/
def itemsSubset : List OptionItem → List OptionItem → Bool
  | [], _ => true
  | i :: rest, ys => itemMem i ys && itemsSubset rest ys
termination_by xs ys => sizeOf xs + sizeOf ys
end

/-- Whether `hash(frame)` succeeds, and the exception it raises otherwise.
Only the raise behaviour of `__hash__` is modelled (hash integers carry no
information the claims use; equal values of the hashable variants have equal
structural hashes in the source, which is what set deduplication needs).
The base `ArchiveFrame.__hash__` raises RuntimeError; `Options.__hash__`
evaluates `hash(self.content)` on a `set`, which Python rejects as
unhashable with a TypeError, so its own fields are never reached. -/
def frameHash : ArchiveFrame → Except PyError Unit
  | .bare => .error (.runtimeError "Unimplemented method __hash__ for ArchiveFrame")
  | .options _ _ => .error (.typeError "unhashable type: set")
  | _ => .ok ()

/-- `hash(option_item)` evaluates `hash(self.content)` (its other fields are
always hashable), so it raises exactly when the content does. -/
def itemHashError (i : OptionItem) : Option PyError :=
  match frameHash i.content with
  | .error e => some e
  | .ok _ => none

/-- Insert into the model of a Python set: keep the existing element when an
equal one is present. -/
def pySetInsert (acc : List OptionItem) (i : OptionItem) : List OptionItem :=
  if itemMem i acc then acc else acc ++ [i]

/-- Left fold of `set(iterable)`: hash each element in order (raising for
unhashable elements), then insert. -/
def pySetItemsAux : List OptionItem → List OptionItem → Except PyError (List OptionItem)
  | acc, [] => .ok acc
  | acc, i :: rest =>
    match itemHashError i with
    | some e => .error e
    | none => pySetItemsAux (pySetInsert acc i) rest

/-- Python `set(list_of_option_items)`. -/
def pySetItems (l : List OptionItem) : Except PyError (List OptionItem) :=
  pySetItemsAux [] l

/-- `Options.__init__` on a list argument: `set(content)`, then store `name`. -/
def OptionsInit (content : List OptionItem) (name : Option String) :
    Except PyError ArchiveFrame :=
  match pySetItems content with
  | .error e => .error e
  | .ok s => .ok (.options s name)

mutual
/-- The list of child elements that `frame.append_to_element(parent)` appends
to the parent.  The base `ArchiveFrame.append_to_element` is `pass` (appends
nothing); calling any method on the Python `None` frame raises
AttributeError.  `Text` appends a `text` child carrying its content as text;
`Image` appends an `image` child with `src`/`width`/`height` attributes and an
`alt` attribute only when `alt_text` is truthy (not `None` and not the empty
string); `Options.append_to_element` appends an `options` child with NO
attributes (in particular the `name` field is never serialized) containing
one `item` child per member of the content set. -/
def frameAppendElems : ArchiveFrame → Except PyError (List XmlElement)
  | .bare => .ok []
  | .pynone => .error (.attributeError "NoneType object has no attribute append_to_element")
  | .text c => .ok [.mk "text" [] c []]
  | .image f w h a =>
    .ok [.mk "image"
      ([("src", f), ("width", some (intString w)), ("height", some (intString h))] ++
        (match a with
         | some s => if s = "" then [] else [("alt", some s)]
         | none => []))
      none []]
  | .options items _name =>
    match itemsAppend items with
    | .error e => .error e
    | .ok cs => .ok [.mk "options" [] none cs]
termination_by f => sizeOf f

/-- Serialize each member of an options content set in iteration order. -/
def itemsAppend : List OptionItem → Except PyError (List XmlElement)
  | [] => .ok []
  | i :: rest =>
    match itemAppend i with
    | .error e => .error e
    | .ok e =>
      match itemsAppend rest with
      | .error err => .error err
      | .ok es => .ok (e :: es)
termination_by l => sizeOf l

/-- `OptionItem.append_to_element`: an `item` child with a `priority`
attribute, a `key="true"` attribute only when `is_key`, wrapping whatever
children serializing the content frame appends. -/
def itemAppend : OptionItem → Except PyError XmlElement
  | .mk c k p =>
    match frameAppendElems c with
    | .error e => .error e
    | .ok cs =>
      .ok (.mk "item"
        ([("priority", some (intString p))] ++ (if k then [("key", some "true")] else []))
        none cs)
termination_by i => sizeOf i
end

/-- `frame.append_to_element(element)`: the parent with the appended children
(the source mutates the parent in place; the model returns the new parent). -/
def ArchiveFrame.append_to_element (f : ArchiveFrame) (e : XmlElement) :
    Except PyError XmlElement :=
  match frameAppendElems f with
  | .error err => .error err
  | .ok es => .ok (.mk e.tag e.attrib e.text (e.children ++ es))

/-- `Dimension` from archive.py, with the float intensity modelled as an
exact rational. -/
structure Dimension where
  name : Option String
  intensity : ℚ
deriving DecidableEq

/-- The `intensity` property setter: values outside (0, 1] raise ValueError
(`value > 1 or value <= 0`). -/
def Dimension.intensitySet (d : Dimension) (value : ℚ) : Except PyError Dimension :=
  if value > 1 ∨ value ≤ 0 then
    .error (.valueError "intensity must fall in range of (0, 1]")
  else
    .ok { d with intensity := value }

/-- `Dimension.__init__`: stores the name, then assigns the intensity through
the validating setter. -/
def DimensionInit (name : Option String) (value : ℚ) : Except PyError Dimension :=
  Dimension.intensitySet { name := name, intensity := value } value

/-- Python `==` on `Dimension`. -/
def dimPyEq (d d' : Dimension) : Bool :=
  d.name == d'.name && d.intensity == d'.intensity

/-- Python `set` construction over dimensions (always hashable; dedup by `==`,
keeping the first occurrence). -/
def pySetDims (l : List Dimension) : List Dimension :=
  l.foldl (fun acc d => if acc.any (fun x => dimPyEq x d) then acc else acc ++ [d]) []

/-- `Dimension.append_to_element`: a `dimension` child with a `name` attribute
and the printed intensity as text. -/
def dimToElement (d : Dimension) : XmlElement :=
  .mk "dimension" [("name", d.name)] (some (floatRepr d.intensity)) []

/-- `Dimension.parse_xml_element`. -/
def Dimension.parse_xml_element (e : XmlElement) : Except PyError Dimension :=
  match _get_simple_tag_name e.tag with
  | .error err => .error err
  | .ok tag =>
    if tag ≠ "dimension" then .error (.typeError ("Unexpected tag " ++ tag))
    else
      match _get_attribute_safe e "name" .ok with
      | .error err => .error err
      | .ok nm =>
        match pyFloat e.text with
        | .error err => .error err
        | .ok v => DimensionInit nm v

/-- `Text.parse_xml_element`: requires the namespace-stripped tag to be
`text`, then stores the raw element text. -/
def Text.parse_xml_element (e : XmlElement) : Except PyError ArchiveFrame :=
  match _get_simple_tag_name e.tag with
  | .error err => .error err
  | .ok tag =>
    if tag ≠ "text" then .error (.typeError ("Unexpected tag " ++ tag))
    else .ok (.text e.text)

/-- `Image.parse_xml_element`: tag check, then `src` (raw), `width` and
`height` (int-converted) through `_get_attribute_safe`, then optional `alt`. -/
def Image.parse_xml_element (e : XmlElement) : Except PyError ArchiveFrame :=
  match _get_simple_tag_name e.tag with
  | .error err => .error err
  | .ok tag =>
    if tag ≠ "image" then .error (.typeError ("Unexpected tag " ++ tag))
    else
      match _get_attribute_safe e "src" .ok with
      | .error err => .error err
      | .ok src =>
        match _get_attribute_safe e "width" pyInt with
        | .error err => .error err
        | .ok w =>
          match _get_attribute_safe e "height" pyInt with
          | .error err => .error err
          | .ok h => .ok (.image src w h (e.attrGet "alt"))


mutual
/-- `ArchiveFrame.parse_xml_element`: dispatch on the namespace-stripped tag
name; an unrecognised tag falls off the `if` chain, so Python returns `None`
(modelled as `Option.none` in the result). -/
def ArchiveFrame.parse_xml_element (e : XmlElement) : Except PyError (Option ArchiveFrame) :=
  match _get_simple_tag_name e.tag with
  | .error err => .error err
  | .ok tag =>
    if tag = "text" then
      match Text.parse_xml_element e with
      | .error err => .error err
      | .ok f => .ok (some f)
    else if tag = "image" then
      match Image.parse_xml_element e with
      | .error err => .error err
      | .ok f => .ok (some f)
    else if tag = "options" then
      match Options.parse_xml_element e with
      | .error err => .error err
      | .ok f => .ok (some f)
    else .ok none
termination_by 2 * sizeOf e + 1
decreasing_by all_goals (simp_wf; try omega)

/-- `Options.parse_xml_element`: tag check, parse every child whose simple tag
is `item` (the generator inside `list(...)` is fully evaluated), then run
`Options.__init__`, whose `set(...)` call hashes the parsed items. -/
def Options.parse_xml_element (e : XmlElement) : Except PyError ArchiveFrame :=
  match _get_simple_tag_name e.tag with
  | .error err => .error err
  | .ok tag =>
    if tag ≠ "options" then .error (.typeError ("Unexpected tag " ++ tag))
    else
      match collectItems e.children with
      | .error err => .error err
      | .ok items => OptionsInit items (e.attrGet "name")
termination_by 2 * sizeOf e
decreasing_by
  simp_wf
  have hlt : sizeOf e.children < sizeOf e := by
    cases e with
    | mk t a x c => simp [XmlElement.children]
  omega

/-- The strict evaluation of
`list(OptionItem.parse_xml_element(e) for e in element if _get_simple_tag_name(e) == item)`. -/
def collectItems : List XmlElement → Except PyError (List OptionItem)
  | [] => .ok []
  | c :: rest =>
    match _get_simple_tag_name c.tag with
    | .error err => .error err
    | .ok n =>
      if n = "item" then
        match OptionItem.parse_xml_element c with
        | .error err => .error err
        | .ok i =>
          match collectItems rest with
          | .error err => .error err
          | .ok items => .ok (i :: items)
      else collectItems rest
termination_by l => 2 * sizeOf l
decreasing_by all_goals (simp_wf; try omega)

/-- `OptionItem.parse_xml_element`: tag check, exactly-one-child check, then
content (dispatched recursively; an unknown tag stores Python `None`,
modelled as `pynone`), the `key == "true"` flag and the int `priority`. -/
def OptionItem.parse_xml_element (e : XmlElement) : Except PyError OptionItem :=
  match _get_simple_tag_name e.tag with
  | .error err => .error err
  | .ok tag =>
    if tag ≠ "item" then .error (.typeError ("Unexpected tag " ++ tag))
    else
      match h : e.children with
      | [c0] =>
        match ArchiveFrame.parse_xml_element c0 with
        | .error err => .error err
        | .ok f? =>
          match _get_attribute_safe e "priority" pyInt with
          | .error err => .error err
          | .ok p =>
            .ok (.mk (match f? with | some f => f | none => .pynone)
                 (e.attrGet "key" == some "true") p)
      | other => .error (.typeError ("Unexpected " ++ toString other.length ++ " children tag"))
termination_by 2 * sizeOf e
decreasing_by
  simp_wf
  have hc : sizeOf e.children < sizeOf e := by
    cases e with
    | mk t a x c => simp [XmlElement.children]
  rw [h] at hc
  simp at hc
  omega
end

/-- `Quiz` from archive.py.  `dimensions` holds the model of a Python set
(duplicate-free list, unspecified iteration order); `frames` is the ordered
frame list. -/
structure Quiz where
  name : Option String
  creation_time : Int
  modification_time : Option Int
  frames : List ArchiveFrame
  dimensions : List Dimension

/-- `Quiz.__init__` with an explicit creation time (the current-UTC default is
ambient state outside the claims under check): stores the fields and converts
a dimensions list to a set. -/
def QuizInit (frames : List ArchiveFrame) (dimensions : List Dimension)
    (name : Option String) (creation_time : Int) (modification_time : Option Int) : Quiz :=
  ⟨name, creation_time, modification_time, frames, pySetDims dimensions⟩

/-- Serialize a frames list in order: every frame appends its children to the
`frames` element (the abstract base appends nothing, Python `None` raises). -/
def framesAppend : List ArchiveFrame → Except PyError (List XmlElement)
  | [] => .ok []
  | f :: rest =>
    match frameAppendElems f with
    | .error e => .error e
    | .ok es =>
      match framesAppend rest with
      | .error err => .error err
      | .ok rs => .ok (es ++ rs)

/-- `Quiz.append_to_element`.  The traced source never assigns to a field of
`self`, so the post-state of the quiz object (first component) is the input;
mutation of the parent element is modelled by returning it updated.  The
`name` attribute is written unconditionally (value `None` when the quiz has
no name) together with `creation`; `modification` is added only when
present; the single `frames` child precedes the `dimension` children. -/
def Quiz.append_to_element (q : Quiz) (e : XmlElement) :
    Quiz × Except PyError XmlElement :=
  (q,
    match framesAppend q.frames with
    | .error err => .error err
    | .ok framesChildren =>
      .ok (.mk e.tag e.attrib e.text (e.children ++
        [.mk "quiz"
          ([("name", q.name), ("creation", some (pyIsoformat q.creation_time))] ++
            (match q.modification_time with
             | some m => [("modification", some (pyIsoformat m))]
             | none => []))
          none
          (XmlElement.mk "frames" [] none framesChildren :: q.dimensions.map dimToElement)])))

/-- Scan continuation after the first `frames` child was found: any second
`frames` child raises; children after it are never examined. -/
def scanRest (f : XmlElement) : List XmlElement → Except PyError XmlElement
  | [] => .ok f
  | c :: rest =>
    match _get_simple_tag_name c.tag with
    | .error err => .error err
    | .ok n =>
      if n = "frames" then .error (.typeError "Unexpected multi-frames-children tag")
      else scanRest f rest

/-- The frames-children scan of `Quiz.parse_xml_element`: the lazy generator
over children whose simple tag is `frames`, drawn twice (`StopIteration` on
the first draw becomes the got-none TypeError; a successful second draw
raises the multi-children TypeError). -/
def scanFrames : List XmlElement → Except PyError XmlElement
  | [] => .error (.typeError "Expected one frames child, got none")
  | c :: rest =>
    match _get_simple_tag_name c.tag with
    | .error err => .error err
    | .ok n =>
      if n = "frames" then scanRest c rest
      else scanFrames rest

/-- The strict evaluation of
`list(Dimension.parse_xml_element(e) for e in element if _get_simple_tag_name(e) == dimension)`. -/
def collectDimensions : List XmlElement → Except PyError (List Dimension)
  | [] => .ok []
  | c :: rest =>
    match _get_simple_tag_name c.tag with
    | .error err => .error err
    | .ok n =>
      if n = "dimension" then
        match Dimension.parse_xml_element c with
        | .error err => .error err
        | .ok d =>
          match collectDimensions rest with
          | .error err => .error err
          | .ok ds => .ok (d :: ds)
      else collectDimensions rest

/-- `list(ArchiveFrame.parse_xml_element(e) for e in frames_element)`: every
child is dispatched; a child with an unrecognised (namespace-qualified) tag
contributes Python `None` (`pynone`) to the frames list. -/
def parseFrames : List XmlElement → Except PyError (List ArchiveFrame)
  | [] => .ok []
  | c :: rest =>
    match ArchiveFrame.parse_xml_element c with
    | .error err => .error err
    | .ok f? =>
      match parseFrames rest with
      | .error err => .error err
      | .ok fs => .ok ((match f? with | some f => f | none => ArchiveFrame.pynone) :: fs)

/-- `Quiz.parse_xml_element`: tag check, the frames-child scan, then the
constructor arguments in source order (name, creation, modification,
dimensions, frames) and `Quiz.__init__`. -/
def Quiz.parse_xml_element (e : XmlElement) : Except PyError Quiz :=
  match _get_simple_tag_name e.tag with
  | .error err => .error err
  | .ok tag =>
    if tag ≠ "quiz" then .error (.typeError ("Unexpected tag " ++ tag))
    else
      match scanFrames e.children with
      | .error err => .error err
      | .ok framesElement =>
        match _get_attribute_safe e "creation" pyFromIso with
        | .error err => .error err
        | .ok creation =>
          match (match e.attrib.lookup "modification" with
                 | some v =>
                   match pyFromIso v with
                   | .error err => .error err
                   | .ok m => .ok (some m)
                 | none => .ok none : Except PyError (Option Int)) with
          | .error err => .error err
          | .ok modification =>
            match collectDimensions e.children with
            | .error err => .error err
            | .ok dims =>
              match parseFrames framesElement.children with
              | .error err => .error err
              | .ok frames =>
                .ok (QuizInit frames dims (e.attrGet "name") creation modification)

/-- `QuizContainer` from archive.py. -/
structure QuizContainer where
  content : List Quiz
  creation_time : Int

/-- Append each quiz to the root in sequence order. -/
def appendQuizzes : List Quiz → XmlElement → Except PyError XmlElement
  | [], e => .ok e
  | q :: rest, e =>
    match (Quiz.append_to_element q e).snd with
    | .error err => .error err
    | .ok e1 => appendQuizzes rest e1

/-- `QuizContainer.to_xml_element`: a root `archive` element carrying `xmlns`
and `creation` attributes, with one `quiz` child per contained quiz.  Note
the root tag as constructed is the plain string `archive`: the namespace is
only an attribute value, so the in-memory tree carries unqualified tags. -/
def QuizContainer.to_xml_element (c : QuizContainer) : Except PyError XmlElement :=
  appendQuizzes c.content
    (.mk "archive" [("xmlns", some NAMESPACE), ("creation", some (pyIsoformat c.creation_time))]
      none [])

/-- The strict evaluation of
`list(Quiz.parse_xml_element(e) for e in element if _get_simple_tag_name(e) == quiz)`. -/
def collectQuizzes : List XmlElement → Except PyError (List Quiz)
  | [] => .ok []
  | c :: rest =>
    match _get_simple_tag_name c.tag with
    | .error err => .error err
    | .ok n =>
      if n = "quiz" then
        match Quiz.parse_xml_element c with
        | .error err => .error err
        | .ok q =>
          match collectQuizzes rest with
          | .error err => .error err
          | .ok qs => .ok (q :: qs)
      else collectQuizzes rest

/-- `QuizContainer.parse_xml_element`. -/
def QuizContainer.parse_xml_element (e : XmlElement) : Except PyError QuizContainer :=
  match _get_simple_tag_name e.tag with
  | .error err => .error err
  | .ok tag =>
    if tag ≠ "archive" then .error (.typeError ("Unexpected tag " ++ tag))
    else
      match _get_attribute_safe e "creation" pyFromIso with
      | .error err => .error err
      | .ok creation =>
        match collectQuizzes e.children with
        | .error err => .error err
        | .ok qs => .ok ⟨qs, creation⟩

mutual
/-- `ElementTree.tostring`, abstracted to its success/failure behaviour: it
raises TypeError when some attribute value in the tree is Python `None`
(the rendered text itself is not used by any embedded claim). -/
def pyTostring : XmlElement → Except PyError Unit
  | .mk _ attrib _ children =>
    if attrib.all (fun p => p.snd.isSome) then pyTostringList children
    else .error (.typeError "cannot serialize None (type NoneType)")

/-- Render a list of children. -/
def pyTostringList : List XmlElement → Except PyError Unit
  | [] => .ok ()
  | c :: rest =>
    match pyTostring c with
    | .error err => .error err
    | .ok _ => pyTostringList rest
end

/-- Python `container[0]`. -/
def firstChild (e : XmlElement) : Except PyError XmlElement :=
  match e.children with
  | c :: _ => .ok c
  | [] => .error (.indexError "child index out of range")

/-- Construct one `Dimension` per response entry, in order; the constructor
validates each model-returned intensity. -/
def geminiDimList : List (String × ℚ) → Except PyError (List Dimension)
  | [] => .ok []
  | (n, v) :: rest =>
    match DimensionInit (some n) v with
    | .error err => .error err
    | .ok d =>
      match geminiDimList rest with
      | .error err => .error err
      | .ok ds => .ok (d :: ds)

/-- The final step of `GeminiAgent.get_dimensions`:
`set(Dimension(dim[name], dim[intensity]) for dim in response_content[dimensions])`. -/
def geminiMkDimensions (dims : List (String × ℚ)) : Except PyError (List Dimension) :=
  match geminiDimList dims with
  | .error err => .error err
  | .ok ds => .ok (pySetDims ds)

/-- `GeminiAgent.get_dimensions`, with the network abstracted: `response` is
the decoded JSON payload (the array under the required `dimensions` key) of
the awaited reply.  Object mutation is modelled by state passing: the first
component is the state of the input quiz object when the call ends (by
normal return or by exception), and the traced source never assigns to the
quiz.  The call renders the quiz into a fresh `container` element,
stringifies `container[0]` (which raises TypeError when an attribute value
is `None`, e.g. for a nameless quiz), and builds the dimension set from the
response. -/
def GeminiAgent.get_dimensions (quiz : Quiz) (response : List (String × ℚ)) :
    Quiz × Except PyError (List Dimension) :=
  let st := Quiz.append_to_element quiz (.mk "container" [] none [])
  (st.fst,
    match st.snd with
    | .error err => .error err
    | .ok container =>
      match firstChild container with
      | .error err => .error err
      | .ok quizElement =>
        match pyTostring quizElement with
        | .error err => .error err
        | .ok _ => geminiMkDimensions response)


/-- Text and Image frames, the contents an option item of a constructible
Python `Options` value can carry and serialize (an `Options` or bare content
is unhashable, so no Python `Options` containing such an item can be built;
a `None` content raises on serialization). -/
def frameTextOrImage : ArchiveFrame → Bool
  | .text _ => true
  | .image _ _ _ _ => true
  | _ => false

/-- The content restriction on an option item. -/
def contentTextOrImage (i : OptionItem) : Bool :=
  frameTextOrImage i.content

/-- Relation between a content-set member and its serialized `item` element:
tag `item`, a `priority` attribute holding the stringified integer, a `key`
attribute with literal value `true` exactly when `is_key`, and exactly one
child, produced by serializing the content frame. -/
def itemSerialized (i : OptionItem) (el : XmlElement) : Prop :=
  el.tag = "item" ∧
  el.attrib.lookup "priority" = some (some (intString i.priority)) ∧
  (el.attrib.lookup "key" = if i.is_key then some (some "true") else none) ∧
  ∃ ch, el.children = [ch] ∧ frameAppendElems i.content = .ok [ch]

mutual
/-- The namespace qualification an XML reparse applies: with a default
namespace declared at the root via `xmlns`, every element tag in the tree is
rewritten to the qualified form, the declaration itself is consumed, and
empty text collapses to no text (an empty element reparses with no text).
Attribute names stay unqualified under a default namespace. -/
def nsQualify (ns : String) : XmlElement → XmlElement
  | .mk tag attrib text children =>
    .mk ("\x7b" ++ ns ++ "\x7d" ++ tag)
      (attrib.filter fun p => p.1 != "xmlns")
      (match text with
       | some s => if s = "" then none else some s
       | none => none)
      (nsQualifyList ns children)

/-- Qualify every child. -/
def nsQualifyList (ns : String) : List XmlElement → List XmlElement
  | [] => []
  | c :: rest => nsQualify ns c :: nsQualifyList ns rest
end

/-- `QuizContainer.to_xml_document` followed by an XML reparse, modelled at
tree level: rendering raises TypeError when some attribute value in the tree
is Python `None`; otherwise the parser receives the serialized tree with
every tag qualified by the default namespace the root declares (the
serializer always declares one; an undeclared root would reparse with bare
tags, returned unchanged). -/
def QuizContainer.to_xml_document_reparsed (c : QuizContainer) :
    Except PyError XmlElement :=
  match QuizContainer.to_xml_element c with
  | .error err => .error err
  | .ok root =>
    match pyTostring root with
    | .error err => .error err
    | .ok _ =>
      match root.attrGet "xmlns" with
      | some ns => .ok (nsQualify ns root)
      | none => .ok root

/-- Alt text that survives the round trip: absent, or non-empty (the
serializer drops falsy alt text, so an empty alt reparses as absent). -/
def altOk : Option String → Bool
  | none => true
  | some s => !(s == "")

/-- Contents an option item can hold so the document round trip reproduces
it: non-empty Text, or an Image with a present filename and surviving alt
text.  (Options and bare contents are unhashable, so no Python `Options`
value contains them; a Python `None` content raises on serialization.) -/
def contentDocOk : ArchiveFrame → Bool
  | .text (some s) => !(s == "")
  | .image (some _) _ _ a => altOk a
  | _ => false

/-- No member of the list is Python-equal to a later member (the
well-formedness of a set representation: a Python set never holds two equal
members). -/
def itemsPairwiseDistinct : List OptionItem → Bool
  | [] => true
  | i :: rest => rest.all (fun j => !(itemPyEq i j)) && itemsPairwiseDistinct rest

/-- Frames the document round trip reproduces: non-empty Text, Image with a
present filename and surviving alt text, or a name-less Options (the
serializer drops the name attribute) of well-formed items with
round-trippable contents. -/
def frameDocOk : ArchiveFrame → Bool
  | .text (some s) => !(s == "")
  | .image (some _) _ _ a => altOk a
  | .options items none =>
    items.all (fun i => contentDocOk i.content) && itemsPairwiseDistinct items
  | _ => false

/-- Dimensions the round trip reproduces: a present name and an intensity in
(0, 1] (every Dimension built through the validating setter satisfies the
bound). -/
def dimDocOk (d : Dimension) : Bool :=
  d.name.isSome && decide (0 < d.intensity) && decide (d.intensity ≤ 1)

/-- No dimension is Python-equal to a later one (set well-formedness). -/
def dimsPairwiseDistinct : List Dimension → Bool
  | [] => true
  | d :: rest => rest.all (fun x => !(dimPyEq d x)) && dimsPairwiseDistinct rest

/-- Quizzes the document round trip reproduces: a present name (the
serializer writes the name attribute unconditionally, and rendering a None
attribute value raises), round-trippable frames, and a well-formed dimension
set of named, valid dimensions. -/
def quizDocOk (q : Quiz) : Bool :=
  q.name.isSome && q.frames.all frameDocOk &&
    q.dimensions.all dimDocOk && dimsPairwiseDistinct q.dimensions

/-- When a tag contains no right brace, the namespace strip raises the
ValueError of `str.index` (the fallback branch is unreachable). -/
theorem simple_tag_name_no_brace {tag : String} (h : ∀ ch ∈ tag.toList, ch ≠ '\x7d') :
    _get_simple_tag_name tag = .error (.valueError "substring not found") := by
  have hidx : ∀ l : List Char, (∀ ch ∈ l, ch ≠ '\x7d') → charIndex '\x7d' l = none := by
    intro l
    induction l with
    | nil => intro _; rfl
    | cons x rest ih =>
      intro hx
      have h1 : x ≠ '\x7d' := hx x (List.mem_cons_self x rest)
      have h2 := ih fun ch hch => hx ch (List.mem_cons_of_mem x hch)
      simp [charIndex, h1, h2]
  have h2 : charIndex '\x7d' tag.data = none := hidx tag.toList h
  simp [_get_simple_tag_name, h2]

/-- Claim C10: for every element whose tag contains no right brace (an
unqualified tag, as the serializers of this codec themselves produce), every
parse_xml_element of the archive codec raises, even when the tag matches the
expected local name, because `_get_simple_tag_name` uses `str.index`, whose
missing-substring behaviour is to raise `ValueError: substring not found`
(the `rb < 0` fallback of the source is dead code); that ValueError is not
the TypeError (InvalidFormat) kind the parsers raise for tag mismatches. -/
theorem parsers_raise_on_unqualified_tag (e : XmlElement)
    (h : ∀ ch ∈ e.tag.toList, ch ≠ '\x7d') :
    ArchiveFrame.parse_xml_element e = .error (.valueError "substring not found") ∧
    Text.parse_xml_element e = .error (.valueError "substring not found") ∧
    Image.parse_xml_element e = .error (.valueError "substring not found") ∧
    Options.parse_xml_element e = .error (.valueError "substring not found") ∧
    OptionItem.parse_xml_element e = .error (.valueError "substring not found") ∧
    Dimension.parse_xml_element e = .error (.valueError "substring not found") ∧
    Quiz.parse_xml_element e = .error (.valueError "substring not found") ∧
    QuizContainer.parse_xml_element e = .error (.valueError "substring not found") ∧
    PyError.isInvalidFormat (.valueError "substring not found") = false := by
  have hs := simple_tag_name_no_brace h
  refine ⟨?_, ?_, ?_, ?_, ?_, ?_, ?_, ?_, rfl⟩
  · simp [ArchiveFrame.parse_xml_element, hs]
  · simp [Text.parse_xml_element, hs]
  · simp [Image.parse_xml_element, hs]
  · simp [Options.parse_xml_element, hs]
  · simp [OptionItem.parse_xml_element, hs]
  · simp [Dimension.parse_xml_element, hs]
  · simp [Quiz.parse_xml_element, hs]
  · simp [QuizContainer.parse_xml_element, hs]

/-- Witness for C10 at an element whose tag is exactly the expected local
name `text`. -/
theorem parsers_raise_on_unqualified_tag_witness :
    Text.parse_xml_element (.mk "text" [] (some "x") []) =
      .error (.valueError "substring not found") :=
  (parsers_raise_on_unqualified_tag (.mk "text" [] (some "x") []) (by decide)).2.1

/-- Claim C7: calling the dedicated `Text` parser on an element whose
(namespace-qualified) tag is `image` fails with the InvalidFormat kind
(TypeError) and the message names the unexpected tag. -/
theorem text_parse_unexpected_tag (e : XmlElement)
    (h : e.tag = _namespace_extended "image") :
    Text.parse_xml_element e = .error (.typeError ("Unexpected tag " ++ "image")) := by
  have hs : _get_simple_tag_name e.tag = .ok "image" := by rw [h]; decide
  simp [Text.parse_xml_element, hs]

/-- Witness for C7. -/
theorem text_parse_unexpected_tag_witness :
    Text.parse_xml_element (.mk (_namespace_extended "image") [] none []) =
      .error (.typeError ("Unexpected tag " ++ "image")) :=
  text_parse_unexpected_tag (.mk (_namespace_extended "image") [] none []) rfl

/-- Claim C8: hashing a bare abstract `ArchiveFrame` raises the Unimplemented
error (a RuntimeError naming the method and the class). -/
theorem bare_frame_hash_unimplemented :
    frameHash .bare =
      .error (.runtimeError "Unimplemented method __hash__ for ArchiveFrame") := rfl

/-- Only one error can come out of the `Dimension` constructor: the intensity
setter ValueError. -/
theorem dimensionInit_error_msg {name : Option String} {v : ℚ} {err : PyError}
    (h : DimensionInit name v = .error err) :
    err = .valueError "intensity must fall in range of (0, 1]" := by
  by_cases hc : v > 1 ∨ v ≤ 0
  · simp [DimensionInit, Dimension.intensitySet, hc] at h
    exact h.symm
  · simp [DimensionInit, Dimension.intensitySet, hc] at h

/-- Claim C4: setting a `Dimension` intensity — at construction, by
assignment through the setter, or from a model-returned value in
`get_dimensions` — fails with InvalidInput (ValueError) for every value ≤ 0
or > 1, and succeeds for every value in (0, 1]. -/
theorem dimension_intensity_validation :
    (∀ (name : Option String) (v : ℚ), v ≤ 0 ∨ 1 < v →
      DimensionInit name v = .error (.valueError "intensity must fall in range of (0, 1]")) ∧
    (∀ (d : Dimension) (v : ℚ), v ≤ 0 ∨ 1 < v →
      Dimension.intensitySet d v = .error (.valueError "intensity must fall in range of (0, 1]")) ∧
    (∀ (name : Option String) (v : ℚ), 0 < v → v ≤ 1 →
      DimensionInit name v = .ok { name := name, intensity := v }) ∧
    (∀ (d : Dimension) (v : ℚ), 0 < v → v ≤ 1 →
      Dimension.intensitySet d v = .ok { d with intensity := v }) ∧
    (∀ (pre post : List (String × ℚ)) (n : String) (v : ℚ), v ≤ 0 ∨ 1 < v →
      geminiMkDimensions (pre ++ (n, v) :: post) =
        .error (.valueError "intensity must fall in range of (0, 1]")) := by
  have hset : ∀ (d : Dimension) (v : ℚ), v ≤ 0 ∨ 1 < v →
      Dimension.intensitySet d v =
        .error (.valueError "intensity must fall in range of (0, 1]") := by
    intro d v hv
    have hc : v > 1 ∨ v ≤ 0 := hv.elim (fun h0 => Or.inr h0) (fun h1 => Or.inl h1)
    simp [Dimension.intensitySet, hc]
  have hok : ∀ (d : Dimension) (v : ℚ), 0 < v → v ≤ 1 →
      Dimension.intensitySet d v = .ok { d with intensity := v } := by
    intro d v h0 h1
    have hc : ¬ (v > 1 ∨ v ≤ 0) := by
      intro hcon
      rcases hcon with hgt | hle
      · exact absurd hgt (not_lt.mpr h1)
      · exact absurd h0 (not_lt.mpr hle)
    simp [Dimension.intensitySet, hc]
  have hinit : ∀ (name : Option String) (v : ℚ), v ≤ 0 ∨ 1 < v →
      DimensionInit name v =
        .error (.valueError "intensity must fall in range of (0, 1]") :=
    fun name v hv => hset ⟨name, v⟩ v hv
  have hlist : ∀ (pre : List (String × ℚ)) (n : String) (v : ℚ) (post : List (String × ℚ)),
      v ≤ 0 ∨ 1 < v →
      geminiDimList (pre ++ (n, v) :: post) =
        .error (.valueError "intensity must fall in range of (0, 1]") := by
    intro pre
    induction pre with
    | nil =>
      intro n v post hv
      simp only [List.nil_append, geminiDimList]
      rw [hinit (some n) v hv]
    | cons p rest ih =>
      intro n v post hv
      obtain ⟨m, w⟩ := p
      simp only [List.cons_append, geminiDimList]
      cases hD : DimensionInit (some m) w with
      | error err => simp [dimensionInit_error_msg hD]
      | ok d =>
        simp only [List.append_eq]
        rw [ih n v post hv]
  refine ⟨hinit, hset, fun name v h0 h1 => hok ⟨name, v⟩ v h0 h1,
    hok, fun pre post n v hv => ?_⟩
  simp only [geminiMkDimensions]
  rw [hlist pre n v post hv]

/-- Witness for C4: rejection at 2 and at 0 (construction and assignment),
acceptance at 1, and rejection of a model-returned intensity 2. -/
theorem dimension_intensity_validation_witness :
    DimensionInit (some "a") 2 = .error (.valueError "intensity must fall in range of (0, 1]") ∧
    Dimension.intensitySet ⟨some "a", 1⟩ 0 =
      .error (.valueError "intensity must fall in range of (0, 1]") ∧
    DimensionInit (some "a") 1 = .ok { name := some "a", intensity := 1 } ∧
    Dimension.intensitySet ⟨some "a", 1⟩ 1 = .ok { name := some "a", intensity := 1 } ∧
    geminiMkDimensions [("x", 2)] =
      .error (.valueError "intensity must fall in range of (0, 1]") :=
  ⟨dimension_intensity_validation.1 (some "a") 2 (Or.inr (by decide)),
   dimension_intensity_validation.2.1 ⟨some "a", 1⟩ 0 (Or.inl (by decide)),
   dimension_intensity_validation.2.2.1 (some "a") 1 (by decide) (by decide),
   dimension_intensity_validation.2.2.2.1 ⟨some "a", 1⟩ 1 (by decide) (by decide),
   by
     have h := dimension_intensity_validation.2.2.2.2 [] [] "x" 2 (Or.inr (by decide))
     simpa using h⟩

/-- Claim C1 (code-bug evaluation): appending `Text("hello")` to a parent via
`append_to_element` writes one child with the unqualified tag `text`, and
feeding that child straight back to `Text.parse_xml_element` raises the
`str.index` ValueError instead of returning an equal `Text`. -/
theorem text_frame_roundtrip_raises :
    (ArchiveFrame.append_to_element (.text (some "hello")) (.mk "root" [] none [])).map
        (fun parent => parent.children.map Text.parse_xml_element) =
      .ok [.error (.valueError "substring not found")] := by
  simp [ArchiveFrame.append_to_element, frameAppendElems, XmlElement.children,
        XmlElement.tag, XmlElement.attrib, XmlElement.text]
  rfl

/-- Claim C3 (counterexample): serializing an `Options` value whose `name` is
present produces an `options` element with an empty attribute list — the
`name` attribute is never written (`Options.append_to_element` creates the
sub-element with no attributes), refuting the name-attribute conjunct. -/
theorem options_serialize_drops_name :
    frameAppendElems (.options [.mk (.text (some "a")) false 0] (some "choices")) =
      .ok [.mk "options" [] none
        [.mk "item" [("priority", some "0")] none [.mk "text" [] (some "a") []]]] ∧
    (XmlElement.mk "options" [] none
        [.mk "item" [("priority", some "0")] none
          [.mk "text" [] (some "a") []]]).attrGet "name" = none := by
  refine ⟨?_, rfl⟩
  simp [frameAppendElems, itemsAppend, itemAppend]
  simp [intString, intChars, natChars, digitChar]
  try rfl

/-- Serializing a Text or Image frame appends exactly one element. -/
theorem frameAppendElems_single (f : ArchiveFrame) (h : frameTextOrImage f = true) :
    ∃ ch, frameAppendElems f = .ok [ch] := by
  cases f with
  | text tc => exact ⟨.mk "text" [] tc [], by simp [frameAppendElems]⟩
  | image fn w hh a =>
    cases a with
    | none =>
      exact ⟨.mk "image" [("src", fn), ("width", some (intString w)),
        ("height", some (intString hh))] none [], by simp [frameAppendElems]⟩
    | some s =>
      by_cases hs : s = ""
      · exact ⟨.mk "image" [("src", fn), ("width", some (intString w)),
          ("height", some (intString hh))] none [], by simp [frameAppendElems, hs]⟩
      · exact ⟨.mk "image" [("src", fn), ("width", some (intString w)),
          ("height", some (intString hh)), ("alt", some s)] none [],
          by simp [frameAppendElems, hs]⟩
  | bare => simp [frameTextOrImage] at h
  | pynone => simp [frameTextOrImage] at h
  | options xs nm => simp [frameTextOrImage] at h

/-- Per-item serialization shape, by induction over the content set. -/
theorem itemsAppend_shape (items : List OptionItem)
    (h : ∀ i ∈ items, contentTextOrImage i = true) :
    ∃ cs, itemsAppend items = .ok cs ∧ List.Forall₂ itemSerialized items cs := by
  induction items with
  | nil => exact ⟨[], by simp [itemsAppend], List.Forall₂.nil⟩
  | cons i rest ih =>
    obtain ⟨cs, hcs, hf⟩ := ih fun j hj => h j (List.mem_cons_of_mem i hj)
    have hi := h i (List.mem_cons_self i rest)
    obtain ⟨c0, k, p⟩ := i
    obtain ⟨ch, hch⟩ := frameAppendElems_single c0
      (by simpa [contentTextOrImage, OptionItem.content] using hi)
    refine ⟨.mk "item"
        ([("priority", some (intString p))] ++ (if k then [("key", some "true")] else []))
        none [ch] :: cs, ?_, ?_⟩
    · simp [itemsAppend, itemAppend, hch, hcs]
    · refine List.Forall₂.cons ⟨rfl, ?_, ?_, ⟨ch, rfl, ?_⟩⟩ hf
      · cases k <;> simp [List.lookup, OptionItem.priority]
      · cases k <;> simp [List.lookup, OptionItem.is_key]
      · simpa [OptionItem.content] using hch

/-- Claim C3 amended: for every `Options` value whose members carry `Text` or
`Image` content (the contents a constructible-and-serializable Python
`Options` can hold), serialization produces an `options` element with NO
attributes (in particular no `name` attribute even when the name is present)
containing one `item` child per member, each item carrying the stringified
`priority`, a `key="true"` attribute exactly when `is_key`, and wrapping
exactly one child serialized from its content frame. -/
theorem options_serialization_shape (items : List OptionItem) (name : Option String)
    (h : ∀ i ∈ items, contentTextOrImage i = true) :
    ∃ cs, frameAppendElems (.options items name) = .ok [.mk "options" [] none cs] ∧
      cs.length = items.length ∧ List.Forall₂ itemSerialized items cs := by
  obtain ⟨cs, hcs, hf⟩ := itemsAppend_shape items h
  exact ⟨cs, by simp [frameAppendElems, hcs], (List.Forall₂.length_eq hf).symm, hf⟩

/-- Witness for C3 at a one-member named options value with a key item. -/
theorem options_serialization_shape_witness :
    ∃ cs, frameAppendElems (.options [.mk (.text (some "a")) true 2] (some "n")) =
        .ok [.mk "options" [] none cs] ∧
      cs.length = [OptionItem.mk (.text (some "a")) true 2].length ∧
      List.Forall₂ itemSerialized [.mk (.text (some "a")) true 2] cs :=
  options_serialization_shape [.mk (.text (some "a")) true 2] (some "n") (by
    intro i hi
    simp only [List.mem_singleton] at hi
    subst hi
    rfl)

/-- Claim C5 (counterexample): the two option items are structurally equal
(Python `==` is true), yet constructing `Options` from the two-element list
raises TypeError — `set(...)` hashes each item, `OptionItem.__hash__` hashes
its content, and `Options.__hash__` evaluates `hash` of a Python set, which
is unhashable.  (The inner empty `Options` value is constructible: passing a
set to `Options.__init__` skips the `set(...)` conversion.) -/
theorem options_dedup_unhashable :
    itemPyEq (.mk (.options [] none) false 0) (.mk (.options [] none) false 0) = true ∧
    OptionsInit [.mk (.options [] none) false 0, .mk (.options [] none) false 0] none =
      .error (.typeError "unhashable type: set") := by
  constructor
  · simp [itemPyEq, framePyEq, itemsSubset]
  · simp [OptionsInit, pySetItems, pySetItemsAux, itemHashError, frameHash, OptionItem.content]

/-- Claim C5 amended: for every pair of structurally equal option items whose
hashing succeeds (any content except `Options` or a bare frame),
constructing `Options` from the two-element list yields a content set of
size 1, holding the first of the two. -/
theorem options_dedup_hashable (i1 i2 : OptionItem) (name : Option String)
    (heq : itemPyEq i1 i2 = true)
    (h1 : itemHashError i1 = none) (h2 : itemHashError i2 = none) :
    OptionsInit [i1, i2] name = .ok (.options [i1] name) := by
  simp [OptionsInit, pySetItems, pySetItemsAux, pySetInsert, itemMem, h1, h2, heq]

/-- Witness for C5 at two equal text items. -/
theorem options_dedup_hashable_witness :
    OptionsInit [.mk (.text (some "a")) false 0, .mk (.text (some "a")) false 0] none =
      .ok (.options [.mk (.text (some "a")) false 0] none) :=
  options_dedup_hashable _ _ none (by simp [itemPyEq, framePyEq]) rfl rfl

/-- A children scan over non-frames children finds no frames child. -/
theorem scanFrames_none (cs : List XmlElement)
    (h : ∀ c ∈ cs, ∃ s, _get_simple_tag_name c.tag = .ok s ∧ s ≠ "frames") :
    scanFrames cs = .error (.typeError "Expected one frames child, got none") := by
  induction cs with
  | nil => rfl
  | cons c rest ih =>
    obtain ⟨s, hsc, hne⟩ := h c (List.mem_cons_self c rest)
    have hr := ih fun d hd => h d (List.mem_cons_of_mem c hd)
    simp [scanFrames, hsc, hne, hr]

/-- After the first frames child, drawing a second frames child raises. -/
theorem scanRest_second (f f2 : XmlElement) (mid post : List XmlElement)
    (hmid : ∀ c ∈ mid, ∃ s, _get_simple_tag_name c.tag = .ok s ∧ s ≠ "frames")
    (h2 : _get_simple_tag_name f2.tag = .ok "frames") :
    scanRest f (mid ++ f2 :: post) =
      .error (.typeError "Unexpected multi-frames-children tag") := by
  induction mid with
  | nil => simp [scanRest, h2]
  | cons c rest ih =>
    obtain ⟨s, hsc, hne⟩ := hmid c (List.mem_cons_self c rest)
    have hr := ih fun d hd => hmid d (List.mem_cons_of_mem c hd)
    simp [scanRest, hsc, hne, hr]

/-- A scan over a children list holding two frames children raises the
multi-children error. -/
theorem scanFrames_two (pre mid post : List XmlElement) (f1 f2 : XmlElement)
    (hpre : ∀ c ∈ pre, ∃ s, _get_simple_tag_name c.tag = .ok s ∧ s ≠ "frames")
    (hmid : ∀ c ∈ mid, ∃ s, _get_simple_tag_name c.tag = .ok s ∧ s ≠ "frames")
    (h1 : _get_simple_tag_name f1.tag = .ok "frames")
    (h2 : _get_simple_tag_name f2.tag = .ok "frames") :
    scanFrames (pre ++ f1 :: mid ++ f2 :: post) =
      .error (.typeError "Unexpected multi-frames-children tag") := by
  induction pre with
  | nil => simp [scanFrames, h1, scanRest_second f1 f2 mid post hmid h2]
  | cons c rest ih =>
    obtain ⟨s, hsc, hne⟩ := hpre c (List.mem_cons_self c rest)
    have hr := ih fun d hd => hpre d (List.mem_cons_of_mem c hd)
    simp only [List.cons_append, scanFrames, hsc, hne]
    simpa using hr

/-- Claim C6: parsing an image element (namespace-qualified, as elements of a
reparsed document are) without a `width` attribute fails with InvalidFormat
(a missing-attribute TypeError — on `width`, or already on `src` when that
is missing too); parsing a quiz element with zero `frames` children fails
with the got-none TypeError; parsing one with two (or more) `frames`
children fails with the multi-children TypeError.  Every case raises, so
nothing is returned in any of these cases. -/
theorem parse_structural_failures_invalid_format :
    (∀ e : XmlElement, e.tag = _namespace_extended "image" →
      e.attrib.lookup "width" = none →
      failsInvalidFormat (Image.parse_xml_element e) = true) ∧
    (∀ e : XmlElement, e.tag = _namespace_extended "quiz" →
      (∀ c ∈ e.children, ∃ s, _get_simple_tag_name c.tag = .ok s ∧ s ≠ "frames") →
      Quiz.parse_xml_element e = .error (.typeError "Expected one frames child, got none")) ∧
    (∀ (e : XmlElement) (pre mid post : List XmlElement) (f1 f2 : XmlElement),
      e.tag = _namespace_extended "quiz" →
      e.children = pre ++ f1 :: mid ++ f2 :: post →
      (∀ c ∈ pre, ∃ s, _get_simple_tag_name c.tag = .ok s ∧ s ≠ "frames") →
      (∀ c ∈ mid, ∃ s, _get_simple_tag_name c.tag = .ok s ∧ s ≠ "frames") →
      _get_simple_tag_name f1.tag = .ok "frames" →
      _get_simple_tag_name f2.tag = .ok "frames" →
      Quiz.parse_xml_element e =
        .error (.typeError "Unexpected multi-frames-children tag")) := by
  refine ⟨?_, ?_, ?_⟩
  · intro e htag hw
    have hs : _get_simple_tag_name e.tag = .ok "image" := by rw [htag]; decide
    cases hsrc : e.attrib.lookup "src" with
    | none =>
      simp [Image.parse_xml_element, hs, _get_attribute_safe, hsrc,
            failsInvalidFormat, PyError.isInvalidFormat]
    | some v =>
      simp [Image.parse_xml_element, hs, _get_attribute_safe, hsrc, hw,
            failsInvalidFormat, PyError.isInvalidFormat]
  · intro e htag hch
    have hs : _get_simple_tag_name e.tag = .ok "quiz" := by rw [htag]; decide
    simp [Quiz.parse_xml_element, hs, scanFrames_none e.children hch]
  · intro e pre mid post f1 f2 htag hchildren hpre hmid h1 h2
    have hs : _get_simple_tag_name e.tag = .ok "quiz" := by rw [htag]; decide
    have hscan := scanFrames_two pre mid post f1 f2 hpre hmid h1 h2
    rw [← hchildren] at hscan
    simp [Quiz.parse_xml_element, hs, hscan]

/-- Witness for C6: a width-less image element, a quiz element with no
children at all, and a quiz element with two frames children. -/
theorem parse_structural_failures_invalid_format_witness :
    failsInvalidFormat (Image.parse_xml_element
      (.mk (_namespace_extended "image") [("src", some "a.png")] none [])) = true ∧
    Quiz.parse_xml_element (.mk (_namespace_extended "quiz") [] none []) =
      .error (.typeError "Expected one frames child, got none") ∧
    Quiz.parse_xml_element (.mk (_namespace_extended "quiz") [] none
        [.mk (_namespace_extended "frames") [] none [],
         .mk (_namespace_extended "frames") [] none []]) =
      .error (.typeError "Unexpected multi-frames-children tag") :=
  ⟨parse_structural_failures_invalid_format.1 _ rfl rfl,
   parse_structural_failures_invalid_format.2.1 _ rfl (by simp [XmlElement.children]),
   parse_structural_failures_invalid_format.2.2 _ [] [] []
     (.mk (_namespace_extended "frames") [] none [])
     (.mk (_namespace_extended "frames") [] none [])
     rfl rfl (by simp) (by simp) (by decide) (by decide)⟩

/-- The quiz serializer never assigns to a field of the quiz object: the
post-state it returns is the input quiz. -/
theorem quiz_append_fst (q : Quiz) (e : XmlElement) :
    (Quiz.append_to_element q e).fst = q := rfl

/-- Claim C9: `get_dimensions` leaves the input quiz unchanged — all five
fields are equal before and after the call — whether the call returns a
dimension set or raises (serialization failure, stringification failure, or
intensity validation failure). -/
theorem get_dimensions_preserves_quiz (quiz : Quiz) (response : List (String × ℚ)) :
    (GeminiAgent.get_dimensions quiz response).fst.name = quiz.name ∧
    (GeminiAgent.get_dimensions quiz response).fst.creation_time = quiz.creation_time ∧
    (GeminiAgent.get_dimensions quiz response).fst.modification_time =
      quiz.modification_time ∧
    (GeminiAgent.get_dimensions quiz response).fst.frames = quiz.frames ∧
    (GeminiAgent.get_dimensions quiz response).fst.dimensions = quiz.dimensions := by
  have h : (GeminiAgent.get_dimensions quiz response).fst = quiz := rfl
  rw [h]
  exact ⟨rfl, rfl, rfl, rfl, rfl⟩

/-- Digit values invert digit characters. -/
theorem digitVal_digitChar (d : Nat) (h : d < 10) : digitVal (digitChar d) = some d := by
  interval_cases d <;> rfl

/-- A digit character is never a minus sign or a slash. -/
theorem digitChar_ne (d : Nat) : digitChar d ≠ '-' ∧ digitChar d ≠ '/' := by
  by_cases h : d < 10
  · interval_cases d <;> exact ⟨by decide, by decide⟩
  · rw [digitChar, dif_neg h]
    exact ⟨by decide, by decide⟩

/-- The digit rendering of a natural number is non-empty. -/
theorem natChars_ne_nil (n : Nat) : natChars n ≠ [] := by
  unfold natChars
  split
  · simp
  · simp

/-- Every printed digit character differs from minus and slash. -/
theorem natChars_no_special (n : Nat) : ∀ c ∈ natChars n, c ≠ '-' ∧ c ≠ '/' := by
  induction n using Nat.strong_induction_on with
  | _ n ih =>
    intro c hc
    unfold natChars at hc
    split at hc
    · simp at hc
      subst hc
      exact digitChar_ne n
    · rcases List.mem_append.mp hc with h1 | h2
      · exact ih (n / 10) (Nat.div_lt_self (by omega) (by omega)) c h1
      · simp at h2
        subst h2
        exact digitChar_ne _

/-- Accumulator parsing distributes over list append. -/
theorem goNat_append (acc : Nat) (l1 l2 : List Char) :
    goNat acc (l1 ++ l2) =
      match goNat acc l1 with
      | some a => goNat a l2
      | none => none := by
  induction l1 generalizing acc with
  | nil => rfl
  | cons c rest ih =>
    cases hdv : digitVal c with
    | none => simp [goNat, hdv]
    | some d => simp [goNat, hdv, ih]

/-- Parsing the digits of `n` under an accumulator recovers `n`. -/
theorem goNat_natChars (n : Nat) : ∀ acc, goNat acc (natChars n) =
    some (acc * 10 ^ (natChars n).length + n) := by
  induction n using Nat.strong_induction_on with
  | _ n ih =>
    intro acc
    by_cases h : n < 10
    · rw [natChars]
      simp [goNat, h, digitVal_digitChar n h]
      omega
    · rw [natChars]
      simp only [if_neg h]
      rw [goNat_append]
      rw [ih (n / 10) (Nat.div_lt_self (by omega) (by omega)) acc]
      simp [goNat, digitVal_digitChar (n % 10) (Nat.mod_lt _ (by omega))]
      rw [pow_succ, ← mul_assoc]
      generalize acc * 10 ^ (natChars (n / 10)).length = M
      omega

/-- Round trip for naturals. -/
theorem natOfChars_natChars (n : Nat) : natOfChars (natChars n) = some n := by
  unfold natOfChars
  rw [if_neg (natChars_ne_nil n), goNat_natChars n 0]
  simp

/-- Round trip for integers. -/
theorem intOfChars_intChars (i : Int) : intOfChars (intChars i) = some i := by
  unfold intChars
  split
  · next hneg =>
    rw [intOfChars, if_pos rfl, natOfChars_natChars]
    show some (-(i.natAbs : Int)) = some i
    rw [show (-(i.natAbs : Int)) = i by omega]
  · next hpos =>
    cases hn : natChars i.toNat with
    | nil => exact absurd hn (natChars_ne_nil _)
    | cons c rest =>
      have hc : c ≠ '-' :=
        (natChars_no_special i.toNat c (by rw [hn]; exact List.mem_cons_self c rest)).1
      rw [intOfChars]
      rw [if_neg hc, ← hn, natOfChars_natChars]
      simp
      omega

/-- The integer rendering contains no slash. -/
theorem intChars_no_slash (i : Int) : ∀ c ∈ intChars i, c ≠ '/' := by
  unfold intChars
  split
  · intro c hc
    rcases List.mem_cons.mp hc with h1 | h2
    · subst h1; decide
    · exact (natChars_no_special _ c h2).2
  · intro c hc
    exact (natChars_no_special _ c hc).2

/-- The integer rendering is non-empty. -/
theorem intChars_ne_nil (i : Int) : intChars i ≠ [] := by
  unfold intChars
  split
  · simp
  · exact natChars_ne_nil _

/-- A character absent from a list is not found. -/
theorem charIndex_none (c : Char) (l : List Char) (h : ∀ x ∈ l, x ≠ c) :
    charIndex c l = none := by
  induction l with
  | nil => rfl
  | cons x rest ih =>
    have hx : x ≠ c := h x (List.mem_cons_self x rest)
    simp [charIndex, hx, ih fun y hy => h y (List.mem_cons_of_mem x hy)]

/-- The first occurrence of a separator after a clean prefix. -/
theorem charIndex_append (c : Char) (l1 l2 : List Char) (h : ∀ x ∈ l1, x ≠ c) :
    charIndex c (l1 ++ c :: l2) = some l1.length := by
  induction l1 with
  | nil => simp [charIndex]
  | cons x rest ih =>
    have hx : x ≠ c := h x (List.mem_cons_self x rest)
    simp [charIndex, hx, ih fun y hy => h y (List.mem_cons_of_mem x hy)]

/-- Round trip for rationals. -/
theorem ratOfChars_ratChars (q : ℚ) : ratOfChars (ratChars q) = some q := by
  unfold ratChars
  split
  · next hden =>
    unfold ratOfChars
    rw [charIndex_none '/' _ (intChars_no_slash q.num), intOfChars_intChars]
    have hq := Rat.num_div_den q
    rw [hden] at hq
    simp at hq
    simp [hq]
  · next hden =>
    have h1 : charIndex '/' (intChars q.num ++ '/' :: natChars q.den) =
        some (intChars q.num).length := charIndex_append '/' _ _ (intChars_no_slash q.num)
    have h2 : List.take (intChars q.num).length (intChars q.num ++ '/' :: natChars q.den) =
        intChars q.num := List.take_left _ _
    have h3 : List.drop ((intChars q.num).length + 1) (intChars q.num ++ '/' :: natChars q.den) =
        natChars q.den := by
      rw [show intChars q.num ++ '/' :: natChars q.den =
          (intChars q.num ++ ['/']) ++ natChars q.den by simp,
        show (intChars q.num).length + 1 = (intChars q.num ++ ['/']).length by simp]
      exact List.drop_left _ _
    simp only [ratOfChars, h1, h2, h3, intOfChars_intChars, natOfChars_natChars]
    have hd : q.den ≠ 0 := q.den_nz
    simp [hd, Rat.num_div_den q]

/-- A rendered character list converts back to itself. -/
theorem asString_toList (l : List Char) : l.asString.toList = l := rfl

/-- The iso codec round trip. -/
theorem pyFromIso_roundtrip (t : Int) : pyFromIso (some (pyIsoformat t)) = .ok t := by
  rw [pyFromIso, pyIsoformat, intString, asString_toList, intOfChars_intChars]

/-- The int attribute codec round trip. -/
theorem pyInt_roundtrip (i : Int) : pyInt (some (intString i)) = .ok i := by
  rw [pyInt, intString, asString_toList, intOfChars_intChars]

/-- The float text codec round trip. -/
theorem pyFloat_roundtrip (q : ℚ) : pyFloat (some (floatRepr q)) = .ok q := by
  rw [pyFloat, parseRat, floatRepr, asString_toList, ratOfChars_ratChars]

/-- The printed intensity is never the empty string. -/
theorem floatRepr_ne_empty (q : ℚ) : floatRepr q ≠ "" := by
  intro hc
  have hl : ratChars q = [] := by
    have := congrArg String.toList hc
    rw [floatRepr, asString_toList] at this
    simpa using this
  rw [ratChars] at hl
  split at hl
  · exact intChars_ne_nil _ hl
  · exact intChars_ne_nil q.num (by simpa using List.append_eq_nil.mp hl |>.1)

/-- Membership probe over an append. -/
theorem itemMem_append (i : OptionItem) (l1 l2 : List OptionItem) :
    itemMem i (l1 ++ l2) = (itemMem i l1 || itemMem i l2) := by
  induction l1 with
  | nil => simp [itemMem]
  | cons j rest ih => simp [itemMem, ih, Bool.or_assoc]

/-- Set construction over pairwise-distinct hashable items is the identity. -/
theorem pySetItemsAux_id (l : List OptionItem) : ∀ acc,
    (∀ i ∈ l, itemHashError i = none) →
    (∀ i ∈ l, itemMem i acc = false) →
    itemsPairwiseDistinct l = true →
    pySetItemsAux acc l = .ok (acc ++ l) := by
  induction l with
  | nil =>
    intro acc _ _ _
    simp [pySetItemsAux]
  | cons i rest ih =>
    intro acc hh hm hd
    have hhi : itemHashError i = none := hh i (List.mem_cons_self i rest)
    have hmi : itemMem i acc = false := hm i (List.mem_cons_self i rest)
    simp only [itemsPairwiseDistinct, Bool.and_eq_true, List.all_eq_true] at hd
    simp only [pySetItemsAux, hhi, pySetInsert, hmi]
    rw [if_neg (by simp)]
    rw [ih (acc ++ [i]) (fun j hj => hh j (List.mem_cons_of_mem i hj)) ?_ hd.2]
    · simp
    · intro j hj
      rw [itemMem_append]
      have h1 : itemMem j acc = false := hm j (List.mem_cons_of_mem i hj)
      have h2 : itemPyEq i j = false := by
        have h3 := hd.1 j hj
        simpa using h3
      simp [itemMem, h1, h2]

/-- `set(items)` over a pairwise-distinct hashable list is the identity. -/
theorem pySetItems_id (l : List OptionItem)
    (hh : ∀ i ∈ l, itemHashError i = none)
    (hd : itemsPairwiseDistinct l = true) :
    pySetItems l = .ok l := by
  have h := pySetItemsAux_id l [] hh (fun i _ => by simp [itemMem]) hd
  simpa [pySetItems] using h

/-- Dimension set construction accumulator identity. -/
theorem pySetDims_go (l : List Dimension) : ∀ acc,
    (∀ d ∈ l, acc.any (fun x => dimPyEq x d) = false) →
    dimsPairwiseDistinct l = true →
    List.foldl (fun acc d => if acc.any (fun x => dimPyEq x d) then acc else acc ++ [d]) acc l =
      acc ++ l := by
  induction l with
  | nil =>
    intro acc _ _
    simp
  | cons d rest ih =>
    intro acc hm hd
    simp only [dimsPairwiseDistinct, Bool.and_eq_true, List.all_eq_true] at hd
    have hmd : acc.any (fun x => dimPyEq x d) = false := hm d (List.mem_cons_self d rest)
    simp only [List.foldl, hmd]
    rw [if_neg (by simp), ih (acc ++ [d]) ?_ hd.2]
    · simp
    · intro x hx
      rw [List.any_append]
      have h1 := hm x (List.mem_cons_of_mem d hx)
      have h2 : dimPyEq d x = false := by simpa using hd.1 x hx
      simp [h1, h2]

/-- `set(dimensions)` over a pairwise-distinct list is the identity. -/
theorem pySetDims_id (l : List Dimension) (hd : dimsPairwiseDistinct l = true) :
    pySetDims l = l := by
  have h := pySetDims_go l [] (fun d _ => rfl) hd
  simpa [pySetDims] using h

/-- A string rebuilt from its characters is itself. -/
theorem asString_of_toList (t : String) : t.toList.asString = t := rfl

/-- Stripping a qualified tag recovers the local name (for any namespace and
local name free of right braces). -/
theorem simple_tag_nsQualify (ns t : String) (hns : ∀ c ∈ ns.toList, c ≠ '\x7d') :
    _get_simple_tag_name ("\x7b" ++ ns ++ "\x7d" ++ t) = .ok t := by
  have hdata : ("\x7b" ++ ns ++ "\x7d" ++ t).toList =
      ("\x7b" ++ ns).toList ++ '\x7d' :: t.toList := by
    show (("\x7b" ++ ns ++ "\x7d" ++ t)).data = ("\x7b" ++ ns).data ++ '\x7d' :: t.data
    simp [String.data_append]
  have hpre : ∀ c ∈ ("\x7b" ++ ns).toList, c ≠ '\x7d' := by
    intro c hc
    rw [show ("\x7b" ++ ns).toList = '\x7b' :: ns.toList by
      show ("\x7b" ++ ns).data = '\x7b' :: ns.data
      simp [String.data_append]] at hc
    rcases List.mem_cons.mp hc with h1 | h2
    · subst h1; decide
    · exact hns c h2
  have hdrop : List.drop (("\x7b" ++ ns).toList.length + 1)
      (("\x7b" ++ ns).toList ++ '\x7d' :: t.toList) = t.toList := by
    rw [show ("\x7b" ++ ns).toList ++ '\x7d' :: t.toList =
        (("\x7b" ++ ns).toList ++ ['\x7d']) ++ t.toList by simp,
      show ("\x7b" ++ ns).toList.length + 1 = (("\x7b" ++ ns).toList ++ ['\x7d']).length by simp]
    exact List.drop_left _ _
  simp only [_get_simple_tag_name, hdata, charIndex_append '\x7d' _ _ hpre, hdrop,
    asString_of_toList]

/-- The tag of a qualified element. -/
theorem nsQualify_tag (ns : String) (e : XmlElement) :
    (nsQualify ns e).tag = "\x7b" ++ ns ++ "\x7d" ++ e.tag := by
  cases e
  rfl

/-- A round-trippable item content (non-empty Text, or Image with present
filename and surviving alt text) serializes to one renderable element whose
qualified reparse recovers the frame. -/
theorem content_doc_roundtrip (c : ArchiveFrame) (h : contentDocOk c = true) :
    ∃ el, frameAppendElems c = .ok [el] ∧ pyTostring el = .ok () ∧
      ArchiveFrame.parse_xml_element (nsQualify NAMESPACE el) = .ok (some c) := by
  have hns : ∀ ch ∈ NAMESPACE.toList, ch ≠ '\x7d' := by decide
  cases c with
  | bare => simp [contentDocOk] at h
  | pynone => simp [contentDocOk] at h
  | options xs nm => simp [contentDocOk] at h
  | text tc =>
    match tc, h with
    | none, h => exact absurd h (by simp [contentDocOk])
    | some s, h =>
      have hs : ¬ s = "" := by simpa [contentDocOk] using h
      refine ⟨.mk "text" [] (some s) [], by simp [frameAppendElems], rfl, ?_⟩
      have hq : nsQualify NAMESPACE (.mk "text" [] (some s) []) =
          .mk ("\x7b" ++ NAMESPACE ++ "\x7d" ++ "text") [] (some s) [] := by
        simp [nsQualify, nsQualifyList, hs]
      rw [hq]
      have ht := simple_tag_nsQualify NAMESPACE "text" hns
      simp [ArchiveFrame.parse_xml_element, Text.parse_xml_element, ht,
        XmlElement.tag, XmlElement.text]
  | image fn w ht a =>
    match fn, h with
    | none, h => exact absurd h (by simp [contentDocOk])
    | some file, h =>
      have hta := simple_tag_nsQualify NAMESPACE "image" hns
      cases a with
      | none =>
        refine ⟨.mk "image" [("src", some file), ("width", some (intString w)),
          ("height", some (intString ht))] none [], by simp [frameAppendElems], rfl, ?_⟩
        have hq : nsQualify NAMESPACE (.mk "image" [("src", some file),
            ("width", some (intString w)), ("height", some (intString ht))] none []) =
            .mk ("\x7b" ++ NAMESPACE ++ "\x7d" ++ "image") [("src", some file),
              ("width", some (intString w)), ("height", some (intString ht))] none [] := by
          simp [nsQualify, nsQualifyList]
        rw [hq]
        simp [ArchiveFrame.parse_xml_element, Image.parse_xml_element, hta,
          XmlElement.tag, XmlElement.attrib, _get_attribute_safe, List.lookup,
          pyInt_roundtrip, XmlElement.attrGet]
      | some alt =>
        have halt : ¬ alt = "" := by simpa [contentDocOk, altOk] using h
        refine ⟨.mk "image" [("src", some file), ("width", some (intString w)),
          ("height", some (intString ht)), ("alt", some alt)] none [],
          by simp [frameAppendElems, halt], rfl, ?_⟩
        have hq : nsQualify NAMESPACE (.mk "image" [("src", some file),
            ("width", some (intString w)), ("height", some (intString ht)),
            ("alt", some alt)] none []) =
            .mk ("\x7b" ++ NAMESPACE ++ "\x7d" ++ "image") [("src", some file),
              ("width", some (intString w)), ("height", some (intString ht)),
              ("alt", some alt)] none [] := by
          simp [nsQualify, nsQualifyList]
        rw [hq]
        simp [ArchiveFrame.parse_xml_element, Image.parse_xml_element, hta,
          XmlElement.tag, XmlElement.attrib, _get_attribute_safe, List.lookup,
          pyInt_roundtrip, XmlElement.attrGet]

/-- A round-trippable option item serializes to one renderable `item`
element whose qualified reparse recovers the item. -/
theorem item_doc_roundtrip (i : OptionItem) (h : contentDocOk i.content = true) :
    ∃ el, itemAppend i = .ok el ∧ el.tag = "item" ∧ pyTostring el = .ok () ∧
      OptionItem.parse_xml_element (nsQualify NAMESPACE el) = .ok i := by
  have hns : ∀ ch ∈ NAMESPACE.toList, ch ≠ '\x7d' := by decide
  obtain ⟨c, k, p⟩ := i
  obtain ⟨chEl, hser, hto, hparse⟩ := content_doc_roundtrip c (by simpa [OptionItem.content] using h)
  refine ⟨.mk "item" ([("priority", some (intString p))] ++
      (if k then [("key", some "true")] else [])) none [chEl], ?_, ?_, ?_, ?_⟩
  · simp [itemAppend, hser]
  · cases k <;> rfl
  · cases k <;> simp [pyTostring, pyTostringList, hto]
  · have hq : nsQualify NAMESPACE (.mk "item" ([("priority", some (intString p))] ++
        (if k then [("key", some "true")] else [])) none [chEl]) =
        .mk ("\x7b" ++ NAMESPACE ++ "\x7d" ++ "item") ([("priority", some (intString p))] ++
          (if k then [("key", some "true")] else [])) none [nsQualify NAMESPACE chEl] := by
      cases k <;> simp [nsQualify, nsQualifyList]
    rw [hq]
    have hti := simple_tag_nsQualify NAMESPACE "item" hns
    cases k <;>
      simp [OptionItem.parse_xml_element, hti, XmlElement.tag, XmlElement.attrib,
        XmlElement.children, XmlElement.attrGet, _get_attribute_safe, List.lookup,
        pyInt_roundtrip, hparse]

/-- Serializing a round-trippable item list and reparsing the qualified
children recovers the list in order. -/
theorem items_doc_roundtrip (items : List OptionItem)
    (h : ∀ i ∈ items, contentDocOk i.content = true) :
    ∃ els, itemsAppend items = .ok els ∧ pyTostringList els = .ok () ∧
      collectItems (nsQualifyList NAMESPACE els) = .ok items := by
  induction items with
  | nil => exact ⟨[], by simp [itemsAppend], rfl, by simp [nsQualifyList, collectItems]⟩
  | cons i rest ih =>
    obtain ⟨els, hsers, htos, hcols⟩ := ih fun j hj => h j (List.mem_cons_of_mem i hj)
    obtain ⟨el, hser, htag, hto, hparse⟩ :=
      item_doc_roundtrip i (h i (List.mem_cons_self i rest))
    have hns : ∀ ch ∈ NAMESPACE.toList, ch ≠ '\x7d' := by decide
    refine ⟨el :: els, ?_, ?_, ?_⟩
    · simp [itemsAppend, hser, hsers]
    · simp [pyTostringList, hto, htos]
    · have hstag : _get_simple_tag_name (nsQualify NAMESPACE el).tag = .ok "item" := by
        rw [nsQualify_tag, htag]
        exact simple_tag_nsQualify NAMESPACE "item" hns
      simp [nsQualifyList, collectItems, hstag, hparse, hcols]

/-- A round-trippable frame serializes to one renderable element whose
qualified reparse recovers the frame. -/
theorem frame_doc_roundtrip (f : ArchiveFrame) (h : frameDocOk f = true) :
    ∃ el, frameAppendElems f = .ok [el] ∧ pyTostring el = .ok () ∧
      ArchiveFrame.parse_xml_element (nsQualify NAMESPACE el) = .ok (some f) := by
  have hns : ∀ ch ∈ NAMESPACE.toList, ch ≠ '\x7d' := by decide
  cases f with
  | bare => simp [frameDocOk] at h
  | pynone => simp [frameDocOk] at h
  | text tc =>
    cases tc with
    | none => simp [frameDocOk] at h
    | some s =>
      exact content_doc_roundtrip (.text (some s)) (by simpa [frameDocOk, contentDocOk] using h)
  | image fn w ht a =>
    cases fn with
    | none => simp [frameDocOk] at h
    | some file =>
      exact content_doc_roundtrip (.image (some file) w ht a)
        (by simpa [frameDocOk, contentDocOk] using h)
  | options items nm =>
    match nm, h with
    | none, h =>
      rw [frameDocOk] at h
      simp only [Bool.and_eq_true, List.all_eq_true] at h
      obtain ⟨els, hsers, htos, hcols⟩ := items_doc_roundtrip items fun i hi => h.1 i hi
      refine ⟨.mk "options" [] none els, by simp [frameAppendElems, hsers], ?_, ?_⟩
      · simp [pyTostring, htos]
      · have hq : nsQualify NAMESPACE (.mk "options" [] none els) =
            .mk ("\x7b" ++ NAMESPACE ++ "\x7d" ++ "options") [] none
              (nsQualifyList NAMESPACE els) := by
          simp [nsQualify]
        rw [hq]
        have hto := simple_tag_nsQualify NAMESPACE "options" hns
        have hhash : ∀ i ∈ items, itemHashError i = none := by
          intro i hi
          have hci := h.1 i hi
          obtain ⟨c, k, p⟩ := i
          simp only [OptionItem.content] at hci
          cases c with
          | text tc =>
            cases tc with
            | none => exact absurd hci (by simp [contentDocOk])
            | some s => rfl
          | image f2 w2 h2 a2 =>
            cases f2 with
            | none => exact absurd hci (by simp [contentDocOk])
            | some file2 => rfl
          | bare => exact absurd hci (by simp [contentDocOk])
          | pynone => exact absurd hci (by simp [contentDocOk])
          | options xs2 nm2 => exact absurd hci (by simp [contentDocOk])
        simp [ArchiveFrame.parse_xml_element, Options.parse_xml_element, hto,
          XmlElement.tag, XmlElement.children, XmlElement.attrGet, XmlElement.attrib,
          hcols, OptionsInit, pySetItems_id items hhash h.2]

/-- Serializing a round-trippable frames list and reparsing the qualified
children recovers the frames in order. -/
theorem frames_doc_roundtrip (frames : List ArchiveFrame)
    (h : ∀ f ∈ frames, frameDocOk f = true) :
    ∃ els, framesAppend frames = .ok els ∧ pyTostringList els = .ok () ∧
      parseFrames (nsQualifyList NAMESPACE els) = .ok frames := by
  induction frames with
  | nil => exact ⟨[], rfl, rfl, rfl⟩
  | cons f rest ih =>
    obtain ⟨els, hsers, htos, hps⟩ := ih fun g hg => h g (List.mem_cons_of_mem f hg)
    obtain ⟨el, hser, hto, hparse⟩ := frame_doc_roundtrip f (h f (List.mem_cons_self f rest))
    refine ⟨el :: els, ?_, ?_, ?_⟩
    · simp [framesAppend, hser, hsers]
    · simp [pyTostringList, hto, htos]
    · simp [nsQualifyList, parseFrames, hparse, hps]

/-- Serializing a round-trippable dimension list and reparsing the qualified
elements recovers the list in order; every qualified element carries the
`dimension` local name. -/
theorem dims_doc_roundtrip (ds : List Dimension) (h : ∀ d ∈ ds, dimDocOk d = true) :
    pyTostringList (ds.map dimToElement) = .ok () ∧
      collectDimensions (nsQualifyList NAMESPACE (ds.map dimToElement)) = .ok ds ∧
      (∀ c ∈ nsQualifyList NAMESPACE (ds.map dimToElement),
        _get_simple_tag_name c.tag = .ok "dimension") := by
  have hns : ∀ ch ∈ NAMESPACE.toList, ch ≠ '\x7d' := by decide
  induction ds with
  | nil => exact ⟨rfl, rfl, by simp [nsQualifyList]⟩
  | cons d rest ih =>
    obtain ⟨htos, hcols, htags⟩ := ih fun x hx => h x (List.mem_cons_of_mem d hx)
    have hd := h d (List.mem_cons_self d rest)
    obtain ⟨nm, q⟩ := d
    rw [dimDocOk] at hd
    simp only [Bool.and_eq_true, Option.isSome_iff_exists, decide_eq_true_eq] at hd
    obtain ⟨⟨⟨n, hn⟩, h0⟩, h1⟩ := hd
    subst hn
    have hq : nsQualify NAMESPACE (dimToElement ⟨some n, q⟩) =
        .mk ("\x7b" ++ NAMESPACE ++ "\x7d" ++ "dimension") [("name", some n)]
          (some (floatRepr q)) [] := by
      simp [nsQualify, nsQualifyList, dimToElement, floatRepr_ne_empty q]
    have htag := simple_tag_nsQualify NAMESPACE "dimension" hns
    have hparse : Dimension.parse_xml_element
        (nsQualify NAMESPACE (dimToElement ⟨some n, q⟩)) = .ok ⟨some n, q⟩ := by
      rw [hq]
      have hval : ¬ (q > 1 ∨ q ≤ 0) := by
        intro hcon
        rcases hcon with hgt | hle
        · exact absurd hgt (not_lt.mpr h1)
        · exact absurd h0 (not_lt.mpr hle)
      simp [Dimension.parse_xml_element, htag, XmlElement.tag, XmlElement.attrib,
        XmlElement.text, _get_attribute_safe, List.lookup, pyFloat_roundtrip,
        DimensionInit, Dimension.intensitySet, hval]
    refine ⟨?_, ?_, ?_⟩
    · simp [pyTostringList, dimToElement, pyTostring, htos]
    · simp only [List.map_cons, nsQualifyList, collectDimensions]
      rw [show (nsQualify NAMESPACE (dimToElement ⟨some n, q⟩)).tag =
          "\x7b" ++ NAMESPACE ++ "\x7d" ++ "dimension" by rw [hq]; rfl]
      rw [htag]
      simp [hparse, hcols]
    · intro c hc
      simp only [List.map_cons, nsQualifyList, List.mem_cons] at hc
      rcases hc with h1c | h2c
      · subst h1c
        rw [hq]
        exact htag
      · exact htags c h2c

/-- A scan finding no further frames child returns the first one. -/
theorem scanRest_clean (f : XmlElement) (l : List XmlElement)
    (h : ∀ c ∈ l, ∃ s, _get_simple_tag_name c.tag = .ok s ∧ s ≠ "frames") :
    scanRest f l = .ok f := by
  induction l with
  | nil => rfl
  | cons c rest ih =>
    obtain ⟨s, hsc, hne⟩ := h c (List.mem_cons_self c rest)
    have hr := ih fun d hd => h d (List.mem_cons_of_mem c hd)
    simp [scanRest, hsc, hne, hr]

/-- A round-trippable quiz appends one renderable `quiz` element to its
parent, and parsing the qualified element back yields a quiz with the same
frames sequence (in order) and the same dimension set. -/
theorem quiz_doc_roundtrip (q : Quiz) (hok : quizDocOk q = true) (e : XmlElement) :
    ∃ qel, (Quiz.append_to_element q e).snd =
        .ok (.mk e.tag e.attrib e.text (e.children ++ [qel])) ∧
      qel.tag = "quiz" ∧ pyTostring qel = .ok () ∧
      ∃ q2, Quiz.parse_xml_element (nsQualify NAMESPACE qel) = .ok q2 ∧
        q2.frames = q.frames ∧ q2.dimensions = q.dimensions := by
  have hns : ∀ ch ∈ NAMESPACE.toList, ch ≠ '\x7d' := by decide
  obtain ⟨nm?, ct, mt, frames, dims⟩ := q
  rw [quizDocOk] at hok
  simp only [Bool.and_eq_true, Option.isSome_iff_exists, List.all_eq_true] at hok
  obtain ⟨⟨⟨⟨nm, hnm⟩, hfr⟩, hdall⟩, hdist⟩ := hok
  subst hnm
  obtain ⟨els, hsers, htos, hpfs⟩ := frames_doc_roundtrip frames hfr
  obtain ⟨htosd, hcold, htagsd⟩ := dims_doc_roundtrip dims hdall
  refine ⟨.mk "quiz"
      ([("name", some nm), ("creation", some (pyIsoformat ct))] ++
        (match mt with
         | some m => [("modification", some (pyIsoformat m))]
         | none => []))
      none
      (XmlElement.mk "frames" [] none els :: dims.map dimToElement), ?_, rfl, ?_, ?_⟩
  · simp [Quiz.append_to_element, hsers]
  · cases mt <;> simp [pyTostring, pyTostringList, htos, htosd]
  · have htq := simple_tag_nsQualify NAMESPACE "quiz" hns
    have htf := simple_tag_nsQualify NAMESPACE "frames" hns
    have hqel : nsQualify NAMESPACE (XmlElement.mk "quiz"
        ([("name", some nm), ("creation", some (pyIsoformat ct))] ++
          (match mt with
           | some m => [("modification", some (pyIsoformat m))]
           | none => []))
        none
        (XmlElement.mk "frames" [] none els :: dims.map dimToElement)) =
        .mk ("\x7b" ++ NAMESPACE ++ "\x7d" ++ "quiz")
          ([("name", some nm), ("creation", some (pyIsoformat ct))] ++
            (match mt with
             | some m => [("modification", some (pyIsoformat m))]
             | none => []))
          none
          (XmlElement.mk ("\x7b" ++ NAMESPACE ++ "\x7d" ++ "frames") [] none
              (nsQualifyList NAMESPACE els) ::
            nsQualifyList NAMESPACE (dims.map dimToElement)) := by
      cases mt <;> simp [nsQualify, nsQualifyList]
    rw [hqel]
    have hscan : scanFrames (XmlElement.mk ("\x7b" ++ NAMESPACE ++ "\x7d" ++ "frames") [] none
        (nsQualifyList NAMESPACE els) :: nsQualifyList NAMESPACE (dims.map dimToElement)) =
        .ok (.mk ("\x7b" ++ NAMESPACE ++ "\x7d" ++ "frames") [] none
          (nsQualifyList NAMESPACE els)) := by
      rw [scanFrames]
      simp only [XmlElement.tag, htf, if_true]
      exact scanRest_clean _ _ fun c hc => ⟨"dimension", htagsd c hc, by decide⟩
    have hcolskip : collectDimensions (XmlElement.mk ("\x7b" ++ NAMESPACE ++ "\x7d" ++ "frames")
        [] none (nsQualifyList NAMESPACE els) ::
          nsQualifyList NAMESPACE (dims.map dimToElement)) = .ok dims := by
      rw [collectDimensions]
      simp only [XmlElement.tag, htf]
      rw [if_neg (by simp)]
      exact hcold
    cases mt with
    | none =>
      refine ⟨⟨some nm, ct, none, frames, dims⟩, ?_, rfl, rfl⟩
      simp [Quiz.parse_xml_element, XmlElement.tag, XmlElement.attrib, XmlElement.children,
        XmlElement.attrGet, htq, hscan, hcolskip, _get_attribute_safe, List.lookup,
        pyFromIso_roundtrip, hpfs, QuizInit, pySetDims_id dims hdist]
    | some m =>
      refine ⟨⟨some nm, ct, some m, frames, dims⟩, ?_, rfl, rfl⟩
      simp [Quiz.parse_xml_element, XmlElement.tag, XmlElement.attrib, XmlElement.children,
        XmlElement.attrGet, htq, hscan, hcolskip, _get_attribute_safe, List.lookup,
        pyFromIso_roundtrip, hpfs, QuizInit, pySetDims_id dims hdist]

/-- Claim C2 amended: for every quiz with non-empty frames and non-empty
dimensions that the document round trip can represent — a present name (the
serializer writes the name attribute unconditionally and rendering a `None`
value raises), frames that are non-empty Text, Image with a present
filename and no empty alt text, or name-less Options over well-formed
Text-or-Image items, and a well-formed dimension set (present names, valid
intensities, pairwise distinct) — serializing it inside a `QuizContainer`
to a document and parsing the reparsed document back yields one quiz whose
frames sequence equals the original in the same order and whose dimensions
equal the original as a set. -/
theorem container_document_roundtrip (q : Quiz) (t : Int)
    (hok : quizDocOk q = true) (_hf : q.frames ≠ []) (_hd : q.dimensions ≠ []) :
    ∃ root q2 t2,
      QuizContainer.to_xml_document_reparsed ⟨[q], t⟩ = .ok root ∧
      QuizContainer.parse_xml_element root = .ok ⟨[q2], t2⟩ ∧
      q2.frames = q.frames ∧ q2.dimensions = q.dimensions := by
  have hns : ∀ ch ∈ NAMESPACE.toList, ch ≠ '\x7d' := by decide
  obtain ⟨qel, happ, htag, hto, q2, hparse, hfr2, hdim2⟩ :=
    quiz_doc_roundtrip q hok (.mk "archive"
      [("xmlns", some NAMESPACE), ("creation", some (pyIsoformat t))] none [])
  have hser : QuizContainer.to_xml_element ⟨[q], t⟩ =
      .ok (.mk "archive" [("xmlns", some NAMESPACE), ("creation", some (pyIsoformat t))]
        none [qel]) := by
    simp [QuizContainer.to_xml_element, appendQuizzes, happ, XmlElement.tag,
      XmlElement.attrib, XmlElement.text, XmlElement.children]
  have htost : pyTostring (.mk "archive"
      [("xmlns", some NAMESPACE), ("creation", some (pyIsoformat t))] none [qel]) = .ok () := by
    simp [pyTostring, pyTostringList, hto]
  have hqroot : nsQualify NAMESPACE (.mk "archive"
      [("xmlns", some NAMESPACE), ("creation", some (pyIsoformat t))] none [qel]) =
      .mk ("\x7b" ++ NAMESPACE ++ "\x7d" ++ "archive") [("creation", some (pyIsoformat t))]
        none [nsQualify NAMESPACE qel] := by
    simp [nsQualify, nsQualifyList]
  have hrep : QuizContainer.to_xml_document_reparsed ⟨[q], t⟩ =
      .ok (.mk ("\x7b" ++ NAMESPACE ++ "\x7d" ++ "archive")
        [("creation", some (pyIsoformat t))] none [nsQualify NAMESPACE qel]) := by
    simp [QuizContainer.to_xml_document_reparsed, hser, htost, hqroot, XmlElement.attrGet,
      XmlElement.attrib, List.lookup]
  have hta := simple_tag_nsQualify NAMESPACE "archive" hns
  have htagq : _get_simple_tag_name (nsQualify NAMESPACE qel).tag = .ok "quiz" := by
    rw [nsQualify_tag, htag]
    exact simple_tag_nsQualify NAMESPACE "quiz" hns
  refine ⟨_, q2, t, hrep, ?_, hfr2, hdim2⟩
  have hcq : collectQuizzes [nsQualify NAMESPACE qel] = .ok [q2] := by
    rw [collectQuizzes]
    simp only [htagq, if_true]
    rw [hparse]
    rfl
  simp [QuizContainer.parse_xml_element, XmlElement.tag, XmlElement.attrib,
    XmlElement.children, hta, _get_attribute_safe, List.lookup, pyFromIso_roundtrip, hcq]

/-- Witness for C2 at a one-frame, one-dimension named quiz. -/
theorem container_document_roundtrip_witness :
    ∃ root q2 t2,
      QuizContainer.to_xml_document_reparsed
        ⟨[⟨some "q", 0, none, [.text (some "2+2=?")], [⟨some "Arithmetic", 1⟩]⟩], 0⟩ =
        .ok root ∧
      QuizContainer.parse_xml_element root = .ok ⟨[q2], t2⟩ ∧
      q2.frames = [ArchiveFrame.text (some "2+2=?")] ∧
      q2.dimensions = [Dimension.mk (some "Arithmetic") 1] :=
  container_document_roundtrip
    ⟨some "q", 0, none, [.text (some "2+2=?")], [⟨some "Arithmetic", 1⟩]⟩ 0
    (by decide) (by simp) (by simp)

/-- Claim C2 (counterexample): the document round trip fails as a universal
statement.  A quiz with non-empty frames and non-empty dimensions but no
name satisfies the hypotheses of the claim, yet `to_xml_document` raises
TypeError while rendering the unconditionally written `name` attribute
whose value is Python `None`, so no quiz is ever returned; and a quiz whose
sole frame is `Text("")` round-trips to `Text(None)` (an empty element
reparses with no text), so the parsed frames sequence differs from the
original. -/
theorem container_document_roundtrip_fails :
    QuizContainer.to_xml_document_reparsed
      ⟨[⟨none, 0, none, [.text (some "x")], [⟨some "d", 1⟩]⟩], 0⟩ =
      .error (.typeError "cannot serialize None (type NoneType)") ∧
    (QuizContainer.to_xml_document_reparsed
        ⟨[⟨some "q", 0, none, [.text (some "")], [⟨some "d", 1⟩]⟩], 0⟩).map
        QuizContainer.parse_xml_element =
      .ok (.ok ⟨[⟨some "q", 0, none, [.text none], [⟨some "d", 1⟩]⟩], 0⟩) ∧
    [ArchiveFrame.text none] ≠ [ArchiveFrame.text (some "")] := by
  refine ⟨?_, ?_, by simp⟩
  · simp [QuizContainer.to_xml_document_reparsed, QuizContainer.to_xml_element,
      appendQuizzes, Quiz.append_to_element, framesAppend, frameAppendElems,
      dimToElement, pySetDims, pyTostring, pyTostringList, XmlElement.tag,
      XmlElement.attrib, XmlElement.text, XmlElement.children]
  · have hns : ∀ ch ∈ NAMESPACE.toList, ch ≠ '\x7d' := by decide
    have hta := simple_tag_nsQualify NAMESPACE "archive" hns
    have htq := simple_tag_nsQualify NAMESPACE "quiz" hns
    have htf := simple_tag_nsQualify NAMESPACE "frames" hns
    have htt := simple_tag_nsQualify NAMESPACE "text" hns
    have htd := simple_tag_nsQualify NAMESPACE "dimension" hns
    have hiso := pyFromIso_roundtrip 0
    have hfl := pyFloat_roundtrip 1
    have hne := floatRepr_ne_empty 1
    have h10 : ¬ ((1 : ℚ) ≤ 0) := by norm_num
    have hsd : pySetDims [⟨some "d", (1 : ℚ)⟩] = [⟨some "d", 1⟩] :=
      pySetDims_id _ (by decide)
    simp [QuizContainer.to_xml_document_reparsed, QuizContainer.to_xml_element,
      appendQuizzes, Quiz.append_to_element, framesAppend, frameAppendElems,
      dimToElement, pyTostring, pyTostringList, nsQualify, nsQualifyList, Except.map,
      QuizContainer.parse_xml_element, Quiz.parse_xml_element, scanFrames,
      scanRest, collectDimensions, collectQuizzes, parseFrames,
      ArchiveFrame.parse_xml_element, Text.parse_xml_element,
      Dimension.parse_xml_element, DimensionInit, Dimension.intensitySet,
      QuizInit, _get_attribute_safe, XmlElement.tag, XmlElement.attrib,
      XmlElement.text, XmlElement.children, XmlElement.attrGet, List.lookup,
      hne, h10, hsd, hta, htq, htf, htt, htd, hiso, hfl]
